import Mathlib

/-!
Shallow embedding of the ConvertToPDFSrv service (config.py, converter.py,
cleanup.py, main.py) and proofs about it.

Filenames are modelled as `List Char`.  The filesystem and the external
`soffice` process are modelled by explicit outcome oracles (`SyncAttempt`,
`AsyncAttempt`, `FileEntry`), since the Python code only observes them
through exit codes, existence checks and raised exceptions.
-/

set_option maxHeartbeats 1000000
set_option linter.unusedVariables false

namespace ConvertToPDFSrv

/-! ## Model of CPython pathlib name / stem / suffix -/

/-- Model of CPython pathlib `Path(p).name`: the final path component, i.e.
the text after the last slash, ignoring trailing slashes.  (Special parent
or current-directory components such as a sole `..` are not needed by the
repository and are not modelled.) -/
def pyName (p : List Char) : List Char :=
  (((p.reverse).dropWhile (fun c => c == '/')).takeWhile (fun c => c != '/')).reverse

/-- Split a list of characters at its LAST dot: `splitLastDot l = some (b, a)`
when `l = b ++ '.' :: a` with no dot in `a`, and `none` when `l` has no dot.
This models `str.rfind('.')` as used by CPython pathlib. -/
def splitLastDot : List Char → Option (List Char × List Char)
  | [] => none
  | c :: cs =>
    match splitLastDot cs with
    | some (b, a) => some (c :: b, a)
    | none => if c == '.' then some ([], cs) else none

/-- Model of CPython pathlib `Path(p).suffix`: with `name = Path(p).name` and
`i = name.rfind('.')`, the result is `name[i:]` when `0 < i < len(name) - 1`
and the empty string otherwise. -/
def pySuffix (p : List Char) : List Char :=
  match splitLastDot (pyName p) with
  | some (b, a) => if b ≠ [] ∧ a ≠ [] then '.' :: a else []
  | none => []

/-- Model of CPython pathlib `Path(p).stem`: with `name = Path(p).name` and
`i = name.rfind('.')`, the result is `name[:i]` when `0 < i < len(name) - 1`
and the whole `name` otherwise. -/
def pyStem (p : List Char) : List Char :=
  match splitLastDot (pyName p) with
  | some (b, a) => if b ≠ [] ∧ a ≠ [] then b else pyName p
  | none => pyName p

/-! ## Model of config.py -/

/-- Application configuration (config.py) with its default values; only the
fields the core components read are modelled. -/
structure Config where
  UPLOAD_DIR : String := "uploads"
  OUTPUT_DIR : String := "outputs"
  ENABLE_CLEANUP : Bool := true
  CLEANUP_INTERVAL_MINUTES : Nat := 30
  FILE_EXPIRE_HOURS : Nat := 1
  SOFFICE_PATH : String := "soffice"
  CONVERSION_TIMEOUT : Nat := 300

/-- The configuration with every default from config.py. -/
def defaultConfig : Config := {}

/-! ## Model of converter.py -/

/-- Result triple of one conversion attempt, as returned by convert_to_pdf
and convert_to_pdf_async: (success, message, output_filename). -/
structure ConvResult where
  success : Bool
  message : String
  output : Option (List Char)
deriving DecidableEq

/-- Outcome of the blocking subprocess.run call inside _run_soffice_command:
either the process ran to completion and exited (returncode, stderr), or
one of the exception paths was taken (TimeoutExpired, FileNotFoundError,
or any other exception). -/
inductive ProcOutcome where
  | exited (returncode : Int) (stderr : String)
  | timedOut
  | fileNotFound
  | raised (msg : String)
deriving DecidableEq

/-- converter.py _run_soffice_command: classifies the process outcome into
(success, message). -/
def run_soffice_command (cfg : Config) (o : ProcOutcome) : Bool × String :=
  match o with
  | .exited returncode stderr =>
    if returncode == 0 then (true, "Conversion successful")
    else (false, "Conversion failed: " ++ stderr)
  | .timedOut =>
    (false, "Conversion timeout after " ++ toString cfg.CONVERSION_TIMEOUT ++ " seconds")
  | .fileNotFound => (false, "LibreOffice not found at " ++ cfg.SOFFICE_PATH)
  | .raised msg => (false, "Unexpected error during conversion: " ++ msg)

/-- converter.py _generate_unique_filename: the f-string
stem_uuid+extension, where `unique_id` stands for the generated uuid4
value. -/
def generate_unique_filename (original_filename : List Char) (unique_id : List Char)
    (extension : List Char) : List Char :=
  pyStem original_filename ++ '_' :: (unique_id ++ extension)

/-- The predicted output name computed by both converters:
Path(unique_input_name).stem + ".pdf". -/
def expected_pdf_name (filename : List Char) (unique_id : List Char) : List Char :=
  pyStem (generate_unique_filename filename unique_id (pySuffix filename)) ++ ".pdf".toList

/-- Filesystem/process outcome oracle for one synchronous conversion
attempt: either an exception is raised before or while writing the staged
input file (caught by the outer handler of convert_to_pdf), or the soffice
command runs with outcome `proc`, after which a file at the predicted
output path exists or not. -/
inductive SyncAttempt where
  | stageRaised (msg : String)
  | ran (proc : ProcOutcome) (outputExists : Bool)
deriving DecidableEq

/-- converter.py convert_to_pdf.  `unique_id` stands for the uuid4 value
drawn inside _generate_unique_filename. -/
def convert_to_pdf (cfg : Config) (file_content : List UInt8) (filename : List Char)
    (unique_id : List Char) (att : SyncAttempt) : ConvResult :=
  match att with
  | .stageRaised msg => ⟨false, "Error during conversion: " ++ msg, none⟩
  | .ran proc outputExists =>
    let r := run_soffice_command cfg proc
    if r.1 then
      if outputExists then
        ⟨true, "Conversion completed successfully", some (expected_pdf_name filename unique_id)⟩
      else ⟨false, "PDF file not found after conversion", none⟩
    else ⟨false, r.2, none⟩

/-- Outcome oracle for one asynchronous conversion attempt
(convert_to_pdf_async): an exception reaching the outer handler (e.g. the
staging write or the process spawn failed), a timeout of the awaited
communicate() call (after which the process is killed), or a process exit
with the given returncode and stderr, after which a file at the predicted
output path exists or not. -/
inductive AsyncAttempt where
  | raisedOuter (msg : String)
  | timedOut
  | exited (returncode : Int) (stderr : String) (outputExists : Bool)
deriving DecidableEq

/-- converter.py convert_to_pdf_async. -/
def convert_to_pdf_async (cfg : Config) (file_content : List UInt8) (filename : List Char)
    (unique_id : List Char) (att : AsyncAttempt) : ConvResult :=
  match att with
  | .raisedOuter msg => ⟨false, "Error during async conversion: " ++ msg, none⟩
  | .timedOut =>
    ⟨false, "Conversion timeout after " ++ toString cfg.CONVERSION_TIMEOUT ++ " seconds", none⟩
  | .exited returncode stderr outputExists =>
    if returncode == 0 then
      if outputExists then
        ⟨true, "Conversion completed successfully", some (expected_pdf_name filename unique_id)⟩
      else ⟨false, "PDF file not found after conversion", none⟩
    else ⟨false, "Async conversion failed: " ++ stderr, none⟩

/-- Did the sync attempt's external process exit with returncode 0? -/
def syncExitedZero : SyncAttempt → Bool
  | .ran (.exited returncode _) _ => returncode == 0
  | _ => false

/-- Did a file exist at the predicted output path after the sync attempt? -/
def syncOutputFound : SyncAttempt → Bool
  | .ran _ outputExists => outputExists
  | _ => false

/-- Did the async attempt's external process exit with returncode 0? -/
def asyncExitedZero : AsyncAttempt → Bool
  | .exited returncode _ _ => returncode == 0
  | _ => false

/-- Did a file exist at the predicted output path after the async attempt? -/
def asyncOutputFound : AsyncAttempt → Bool
  | .exited _ _ outputExists => outputExists
  | _ => false

/-- The sync attempt is one of the failure outcomes: staging exception,
binary not found, non-zero exit, timeout, unexpected exception, or zero
exit with the output file missing. -/
def syncAttFails : SyncAttempt → Bool
  | .stageRaised _ => true
  | .ran (.exited returncode _) outputExists => returncode != 0 || !outputExists
  | .ran .timedOut _ => true
  | .ran .fileNotFound _ => true
  | .ran (.raised _) _ => true

/-- The async attempt is one of the failure outcomes. -/
def asyncAttFails : AsyncAttempt → Bool
  | .raisedOuter _ => true
  | .timedOut => true
  | .exited returncode _ outputExists => returncode != 0 || !outputExists

/-! ## Model of cleanup.py -/

/-- One directory entry as observed by a sweep: its name, last-modified
time (seconds since the epoch), whether it is a regular file, whether
stat() raises inside _is_file_expired, and whether unlink() raises when
deletion is attempted. -/
structure FileEntry where
  name : String
  mtime : Int
  isFile : Bool
  statError : Bool
  unlinkError : Bool
deriving DecidableEq

/-- cleanup.py _is_file_expired at current time `now` (seconds): the file's
mtime is strictly before now minus FILE_EXPIRE_HOURS hours; an exception
while checking makes the file count as not expired. -/
def is_file_expired (cfg : Config) (now : Int) (f : FileEntry) : Bool :=
  if f.statError then false
  else decide (f.mtime < now - (cfg.FILE_EXPIRE_HOURS : Int) * 3600)

/-- cleanup.py _cleanup_directory on the listing of one directory: returns
(files remaining after the pass, names of deleted files in scan order).
Entries that are not regular files or not expired are kept; an unlink
error leaves the entry in place and it is not reported deleted. -/
def cleanup_directory (cfg : Config) (now : Int) : List FileEntry → List FileEntry × List String
  | [] => ([], [])
  | f :: fs =>
    let r := cleanup_directory cfg now fs
    if f.isFile && is_file_expired cfg now f then
      if f.unlinkError then (f :: r.1, r.2)
      else (r.1, f.name :: r.2)
    else (f :: r.1, r.2)

/-- The directory.exists() guard of _cleanup_directory: a missing directory
(`none`) scans to no deletions. -/
def cleanup_directory_opt (cfg : Config) (now : Int) :
    Option (List FileEntry) → Option (List FileEntry) × List String
  | none => (none, [])
  | some fs =>
    let r := cleanup_directory cfg now fs
    (some r.1, r.2)

/-- The two staging areas (upload and output directories); `none` models a
directory that does not exist. -/
structure Dirs where
  upload : Option (List FileEntry)
  output : Option (List FileEntry)
deriving DecidableEq

/-- The dict returned by cleanup.py cleanup_expired_files. -/
structure CleanupReport where
  timestamp : Int
  deleted_uploads : Nat
  deleted_outputs : Nat
  total_deleted : Nat
  upload_files : List String
  output_files : List String
deriving DecidableEq

/-- cleanup.py cleanup_expired_files: sweep both areas, returning the new
directory states together with the report. -/
def cleanup_expired_files (cfg : Config) (now : Int) (d : Dirs) : Dirs × CleanupReport :=
  let u := cleanup_directory_opt cfg now d.upload
  let o := cleanup_directory_opt cfg now d.output
  (⟨u.1, o.1⟩,
   ⟨now, u.2.length, o.2.length, u.2.length + o.2.length, u.2, o.2⟩)

/-- Observable actions of the periodic loop in cleanup.py _cleanup_loop. -/
inductive LoopEvent where
  | sweep
  | wait (seconds : Nat)
deriving DecidableEq

/-- cleanup.py _cleanup_loop, unrolled for `iters` iterations of the while
body on its normal path (no exception inside an iteration and is_running
still true): each iteration sweeps when ENABLE_CLEANUP is set and then
waits CLEANUP_INTERVAL_MINUTES * 60 seconds. -/
def cleanup_loop_events (cfg : Config) : Nat → List LoopEvent
  | 0 => []
  | n + 1 =>
    (if cfg.ENABLE_CLEANUP then [LoopEvent.sweep] else [])
      ++ LoopEvent.wait (cfg.CLEANUP_INTERVAL_MINUTES * 60) :: cleanup_loop_events cfg n

/-- Sweeper running flag (cleanup.py FileCleanup.is_running). -/
structure SweeperState where
  is_running : Bool
deriving DecidableEq

/-- cleanup.py start_cleanup_service: no-op when cleanup is disabled or the
service already runs; otherwise sets is_running and schedules _cleanup_loop,
whose first `iters` iterations produce the returned events. -/
def start_cleanup_service (cfg : Config) (s : SweeperState) (iters : Nat) :
    SweeperState × List LoopEvent :=
  if !cfg.ENABLE_CLEANUP then (s, [])
  else if s.is_running then (s, [])
  else (⟨true⟩, cleanup_loop_events cfg iters)

/-! ## Model of main.py -/

/-- Async task status strings used in main.py. -/
inductive JobStatus where
  | processing
  | completed
  | failed
deriving DecidableEq

/-- One record of the async_tasks dict. -/
structure Job where
  status : JobStatus
  message : String
  filename : Option (List Char)
  created_at : Nat
deriving DecidableEq

/-- The async_tasks dict. -/
def Registry : Type := String → Option Job

/-- The empty registry (module start-up state of async_tasks). -/
def emptyReg : Registry := fun _ => none

/-- Dict assignment async_tasks[task_id] = job. -/
def registryInsert (reg : Registry) (task_id : String) (j : Job) : Registry :=
  fun x => if x = task_id then some j else reg x

/-- The record installed at submission time by convert_async (main.py):
status processing, message "Conversion in progress", no filename. -/
def initialJob (now : Nat) : Job :=
  ⟨.processing, "Conversion in progress", none, now⟩

/-- main.py process_async_conversion given the converter's result.  Reading
async_tasks[task_id]["created_at"] raises KeyError when the id is absent;
the surrounding except-branch performs the same read and raises again, so
the function returns an error in that case and the registry is unchanged. -/
def process_async_conversion (reg : Registry) (task_id : String) (res : ConvResult) :
    Except String Registry :=
  match reg task_id with
  | none => .error ("KeyError: " ++ task_id)
  | some old =>
    if res.success then
      .ok (registryInsert reg task_id ⟨.completed, res.message, res.output, old.created_at⟩)
    else
      .ok (registryInsert reg task_id ⟨.failed, res.message, none, old.created_at⟩)

/-- Registry-mutating events of the deferred path: a submission (which
installs the initial Processing record under a fresh uuid) and the later
run of its background completion handler. -/
inductive Event where
  | submit (task_id : String) (now : Nat)
  | finish (task_id : String) (res : ConvResult)

/-- Effect of one event on the registry; a KeyError raised by the
completion handler leaves the registry unchanged. -/
def step (reg : Registry) : Event → Registry
  | .submit task_id now => registryInsert reg task_id (initialJob now)
  | .finish task_id res =>
    match process_async_conversion reg task_id res with
    | .ok reg' => reg'
    | .error _ => reg

/-- Execute a sequence of events. -/
def run (reg : Registry) : List Event → Registry
  | [] => reg
  | e :: tr => run (step reg e) tr

/-- Well-formed event traces of the program: every submitted id is globally
fresh (uuid4 collisions are not modelled) and each submission's completion
handler runs exactly once, after the submission.  `seen` collects the ids
ever submitted, `pending` those whose handler has not yet run. -/
inductive Wf : List String → List String → List Event → Prop where
  | nil (seen pending : List String) : Wf seen pending []
  | submit {seen pending : List String} {task_id : String} {now : Nat} {tr : List Event}
      (hfresh : task_id ∉ seen)
      (htl : Wf (task_id :: seen) (task_id :: pending) tr) :
      Wf seen pending (.submit task_id now :: tr)
  | finish {seen pending : List String} {task_id : String} {res : ConvResult} {tr : List Event}
      (hmem : task_id ∈ pending)
      (htl : Wf seen (pending.erase task_id) tr) :
      Wf seen pending (.finish task_id res :: tr)

/-- Invariant tying a registry to the bookkeeping of `Wf`: every stored id
has been seen, and every pending id holds a Processing record. -/
def Inv (reg : Registry) (seen pending : List String) : Prop :=
  (∀ task_id : String, (reg task_id).isSome → task_id ∈ seen)
  ∧ (∀ task_id ∈ pending, ∃ j : Job, reg task_id = some j ∧ j.status = .processing)
  ∧ pending.Nodup

/-- Allowed upload extensions checked in main.py convert_sync and
convert_async. -/
def allowed_extensions : List String :=
  [".doc", ".docx", ".xls", ".xlsx", ".ppt", ".pptx", ".odt", ".ods", ".odp"]

/-- The ConversionResponse pydantic model of main.py. -/
structure ConversionResponse where
  success : Bool
  message : String
  task_id : Option String
  download_url : Option (List Char)
  filename : Option (List Char)
deriving DecidableEq

/-- Response of an endpoint: either an HTTPException with status code and
detail, or a ConversionResponse body. -/
inductive EndpointOut where
  | httpError (statusCode : Nat) (detail : String)
  | ok (resp : ConversionResponse)
deriving DecidableEq

/-- Path(file.filename).suffix.lower() as a String. -/
def fileExtLower (filename : List Char) : String :=
  ⟨(pySuffix filename).map Char.toLower⟩

/-- main.py convert_sync: extension allow-list, empty-content check, then
the synchronous converter.  The Bool records whether the converter (and
hence staging and the external binary) was reached. -/
def convert_sync_route (cfg : Config) (filename : List Char) (content : List UInt8)
    (unique_id : List Char) (att : SyncAttempt) : EndpointOut × Bool :=
  let file_ext := fileExtLower filename
  if file_ext ∉ allowed_extensions then
    (.httpError 400 ("Unsupported file type: " ++ file_ext ++ ". Supported types: "
        ++ String.intercalate ", " allowed_extensions), false)
  else if content.length == 0 then
    (.httpError 400 "Empty file", false)
  else
    let r := convert_to_pdf cfg content filename unique_id att
    if r.success then
      (.ok ⟨true, r.message, none, (r.output).map (fun nm => "/download/".toList ++ nm),
          r.output⟩, true)
    else
      (.httpError 500 r.message, true)

/-- Data captured by background_tasks.add_task in convert_async. -/
structure ScheduledTask where
  task_id : String
  content : List UInt8
  filename : List Char
deriving DecidableEq

/-- main.py convert_async: extension allow-list, empty-content check, then
creation of the Processing record and scheduling of
process_async_conversion.  Returns the response, the updated registry and
the scheduled background task (none when the request was rejected). -/
def convert_async_route (cfg : Config) (reg : Registry) (filename : List Char)
    (content : List UInt8) (task_id : String) (now : Nat) :
    EndpointOut × Registry × Option ScheduledTask :=
  let file_ext := fileExtLower filename
  if file_ext ∉ allowed_extensions then
    (.httpError 400 ("Unsupported file type: " ++ file_ext ++ ". Supported types: "
        ++ String.intercalate ", " allowed_extensions), reg, none)
  else if content.length == 0 then
    (.httpError 400 "Empty file", reg, none)
  else
    (.ok ⟨true, "Conversion task started", some task_id, none, none⟩,
     registryInsert reg task_id (initialJob now),
     some ⟨task_id, content, filename⟩)

/-! ## General lemmas -/

lemma takeWhile_all {p : Char → Bool} {l : List Char} (h : ∀ a ∈ l, p a = true) :
    List.takeWhile p l = l :=
  List.takeWhile_eq_self_iff.mpr h

lemma dropWhile_none {p : Char → Bool} {l : List Char} (h : ∀ a ∈ l, p a = false) :
    List.dropWhile p l = l := by
  cases l with
  | nil => rfl
  | cons x xs =>
    have hx : p x = false := h x (List.mem_cons_self x xs)
    simp [List.dropWhile, hx]

lemma str_append_ne_empty (a b : String) (h : a.length ≠ 0) : a ++ b ≠ "" := by
  intro hc
  apply h
  have h2 : (a ++ b).length = 0 := by rw [hc]; rfl
  rw [String.length_append] at h2
  omega

lemma str_append_length_ne (a b : String) (h : a.length ≠ 0) : (a ++ b).length ≠ 0 := by
  rw [String.length_append]
  omega

/-! ## Lemmas about the pathlib model -/

lemma pyName_no_slash (p : List Char) : '/' ∉ pyName p := by
  intro h
  rw [pyName, List.mem_reverse] at h
  have := List.mem_takeWhile_imp h
  simp at this

lemma pyName_of_no_slash {l : List Char} (h : '/' ∉ l) : pyName l = l := by
  rw [pyName]
  rw [dropWhile_none]
  · rw [takeWhile_all]
    · exact List.reverse_reverse l
    · intro a ha
      rw [List.mem_reverse] at ha
      simp only [bne_iff_ne, ne_eq]
      intro hc
      exact h (hc ▸ ha)
  · intro a ha
    rw [List.mem_reverse] at ha
    simp only [beq_eq_false_iff_ne, ne_eq]
    intro hc
    exact h (hc ▸ ha)

lemma splitLastDot_none_iff {l : List Char} : splitLastDot l = none ↔ '.' ∉ l := by
  induction l with
  | nil => simp [splitLastDot]
  | cons c cs ih =>
    cases hcs : splitLastDot cs with
    | some r =>
      obtain ⟨b, a⟩ := r
      simp only [splitLastDot, hcs]
      constructor
      · intro h; cases h
      · intro h
        exfalso
        have hnd : '.' ∉ cs := fun hm => h (List.mem_cons_of_mem c hm)
        rw [← ih] at hnd
        rw [hnd] at hcs
        cases hcs
    | none =>
      simp only [splitLastDot, hcs]
      by_cases hc : c = '.'
      · subst hc
        simp
      · have hcc : (c == '.') = false := by simp [hc]
        rw [hcc]
        simp only [Bool.false_eq_true, if_false, true_iff]
        intro hm
        rcases List.mem_cons.mp hm with h | h
        · exact hc h.symm
        · exact (ih.mp hcs) h

lemma splitLastDot_spec {l b a : List Char} (h : splitLastDot l = some (b, a)) :
    l = b ++ '.' :: a ∧ '.' ∉ a := by
  induction l generalizing b a with
  | nil => simp [splitLastDot] at h
  | cons c cs ih =>
    cases hcs : splitLastDot cs with
    | some r =>
      obtain ⟨b', a'⟩ := r
      rw [splitLastDot, hcs] at h
      simp only [Option.some.injEq, Prod.mk.injEq] at h
      obtain ⟨hb, ha⟩ := h
      obtain ⟨h1, h2⟩ := ih hcs
      subst hb; subst ha
      constructor
      · rw [h1]; rfl
      · exact h2
    | none =>
      rw [splitLastDot, hcs] at h
      by_cases hc : c = '.'
      · subst hc
        rw [if_pos (by decide : (('.' : Char) == '.') = true)] at h
        simp only [Option.some.injEq, Prod.mk.injEq] at h
        obtain ⟨hb, ha⟩ := h
        subst hb; subst ha
        exact ⟨rfl, splitLastDot_none_iff.mp hcs⟩
      · have hcc : (c == '.') = false := by simp [hc]
        rw [hcc] at h
        simp at h

lemma splitLastDot_append_some {x m b a : List Char} (h : splitLastDot m = some (b, a)) :
    splitLastDot (x ++ m) = some (x ++ b, a) := by
  induction x with
  | nil => simpa using h
  | cons c cs ih => simp [splitLastDot, ih]

lemma splitLastDot_cons_dot {m : List Char} (h : '.' ∉ m) :
    splitLastDot ('.' :: m) = some ([], m) := by
  rw [splitLastDot, splitLastDot_none_iff.mpr h]
  rw [if_pos (by decide : (('.' : Char) == '.') = true)]

lemma pyStem_of_split_some {p b a : List Char} (hsp : splitLastDot (pyName p) = some (b, a))
    (hba : b ≠ [] ∧ a ≠ []) : pyStem p = b := by
  unfold pyStem
  rw [hsp]
  show (if b ≠ [] ∧ a ≠ [] then b else pyName p) = b
  rw [if_pos hba]

lemma pyStem_of_split_some_deg {p b a : List Char} (hsp : splitLastDot (pyName p) = some (b, a))
    (hba : ¬(b ≠ [] ∧ a ≠ [])) : pyStem p = pyName p := by
  unfold pyStem
  rw [hsp]
  show (if b ≠ [] ∧ a ≠ [] then b else pyName p) = pyName p
  rw [if_neg hba]

lemma pyStem_of_split_none {p : List Char} (hsp : splitLastDot (pyName p) = none) :
    pyStem p = pyName p := by
  unfold pyStem
  rw [hsp]

lemma pySuffix_of_split_some {p b a : List Char} (hsp : splitLastDot (pyName p) = some (b, a))
    (hba : b ≠ [] ∧ a ≠ []) : pySuffix p = '.' :: a := by
  unfold pySuffix
  rw [hsp]
  show (if b ≠ [] ∧ a ≠ [] then '.' :: a else []) = '.' :: a
  rw [if_pos hba]

lemma pySuffix_of_split_some_deg {p b a : List Char} (hsp : splitLastDot (pyName p) = some (b, a))
    (hba : ¬(b ≠ [] ∧ a ≠ [])) : pySuffix p = [] := by
  unfold pySuffix
  rw [hsp]
  show (if b ≠ [] ∧ a ≠ [] then '.' :: a else []) = []
  rw [if_neg hba]

lemma pySuffix_of_split_none {p : List Char} (hsp : splitLastDot (pyName p) = none) :
    pySuffix p = [] := by
  unfold pySuffix
  rw [hsp]

lemma pyStem_no_slash (p : List Char) : '/' ∉ pyStem p := by
  cases hsp : splitLastDot (pyName p) with
  | none => rw [pyStem_of_split_none hsp]; exact pyName_no_slash p
  | some r =>
    obtain ⟨b, a⟩ := r
    by_cases hba : b ≠ [] ∧ a ≠ []
    · rw [pyStem_of_split_some hsp hba]
      intro hm
      apply pyName_no_slash p
      rw [(splitLastDot_spec hsp).1]
      exact List.mem_append.mpr (Or.inl hm)
    · rw [pyStem_of_split_some_deg hsp hba]; exact pyName_no_slash p

lemma pySuffix_no_slash (p : List Char) : '/' ∉ pySuffix p := by
  cases hsp : splitLastDot (pyName p) with
  | none => rw [pySuffix_of_split_none hsp]; exact List.not_mem_nil _
  | some r =>
    obtain ⟨b, a⟩ := r
    by_cases hba : b ≠ [] ∧ a ≠ []
    · rw [pySuffix_of_split_some hsp hba]
      intro hm
      rcases List.mem_cons.mp hm with h | h
      · exact absurd h (by decide)
      · apply pyName_no_slash p
        rw [(splitLastDot_spec hsp).1]
        exact List.mem_append.mpr (Or.inr (List.mem_cons_of_mem _ h))
    · rw [pySuffix_of_split_some_deg hsp hba]; exact List.not_mem_nil _

lemma pySuffix_nonempty_spec {p : List Char} (h : pySuffix p ≠ []) :
    ∃ a : List Char, pySuffix p = '.' :: a ∧ a ≠ [] ∧ '.' ∉ a ∧ pyStem p ≠ []
      ∧ pyName p = pyStem p ++ '.' :: a := by
  cases hsp : splitLastDot (pyName p) with
  | none => exact absurd (pySuffix_of_split_none hsp) h
  | some r =>
    obtain ⟨b, a⟩ := r
    by_cases hba : b ≠ [] ∧ a ≠ []
    · refine ⟨a, pySuffix_of_split_some hsp hba, hba.2, (splitLastDot_spec hsp).2, ?_, ?_⟩
      · rw [pyStem_of_split_some hsp hba]; exact hba.1
      · rw [pyStem_of_split_some hsp hba]; exact (splitLastDot_spec hsp).1
    · exact absurd (pySuffix_of_split_some_deg hsp hba) h

lemma pyStem_of_no_dot {l : List Char} (hs : '/' ∉ l) (hd : '.' ∉ l) : pyStem l = l := by
  have hn : pyName l = l := pyName_of_no_slash hs
  have hsp : splitLastDot (pyName l) = none := by
    rw [hn]; exact splitLastDot_none_iff.mpr hd
  rw [pyStem_of_split_none hsp, hn]

lemma pyStem_of_head_dot {m : List Char} (hs : '/' ∉ '.' :: m) (hd : '.' ∉ m) :
    pyStem ('.' :: m) = '.' :: m := by
  have hn : pyName ('.' :: m) = '.' :: m := pyName_of_no_slash hs
  have hsp : splitLastDot (pyName ('.' :: m)) = some ([], m) := by
    rw [hn]; exact splitLastDot_cons_dot hd
  rw [pyStem_of_split_some_deg hsp (by simp), hn]

lemma pyStem_append_dot {s a : List Char} (hs : '/' ∉ s ++ '.' :: a) (hsne : s ≠ [])
    (hane : a ≠ []) (had : '.' ∉ a) : pyStem (s ++ '.' :: a) = s := by
  have hn : pyName (s ++ '.' :: a) = s ++ '.' :: a := pyName_of_no_slash hs
  have hsplit : splitLastDot (s ++ '.' :: a) = some (s, a) := by
    have h0 := @splitLastDot_append_some s ('.' :: a) [] a (splitLastDot_cons_dot had)
    rwa [List.append_nil] at h0
  have hsp : splitLastDot (pyName (s ++ '.' :: a)) = some (s, a) := by rw [hn]; exact hsplit
  rw [pyStem_of_split_some hsp ⟨hsne, hane⟩]

/-! ## Claim C1 -/

/-- C1: for every conversion attempt (sync or async), the result has
success = true iff the external process exited with status code zero AND a
file exists at the predicted output path afterward; when the process exits
zero but the predicted output file is missing, the result is the distinct
failure "PDF file not found after conversion" (not a process-failure
message), with no output name. -/
theorem claim_C1_success_criterion (cfg : Config) (content : List UInt8)
    (filename unique_id : List Char) (a : SyncAttempt) (a' : AsyncAttempt) :
    ((convert_to_pdf cfg content filename unique_id a).success
      = (syncExitedZero a && syncOutputFound a))
    ∧ (syncExitedZero a = true → syncOutputFound a = false →
        convert_to_pdf cfg content filename unique_id a
          = ⟨false, "PDF file not found after conversion", none⟩)
    ∧ ((convert_to_pdf_async cfg content filename unique_id a').success
      = (asyncExitedZero a' && asyncOutputFound a'))
    ∧ (asyncExitedZero a' = true → asyncOutputFound a' = false →
        convert_to_pdf_async cfg content filename unique_id a'
          = ⟨false, "PDF file not found after conversion", none⟩) := by
  refine ⟨?_, ?_, ?_, ?_⟩
  · cases a with
    | stageRaised msg => rfl
    | ran proc outputExists =>
      cases proc with
      | exited returncode stderr =>
        cases hr : (returncode == 0) <;> cases outputExists <;>
          simp [convert_to_pdf, run_soffice_command, syncExitedZero, syncOutputFound, hr]
      | timedOut => cases outputExists <;> rfl
      | fileNotFound => cases outputExists <;> rfl
      | raised msg => cases outputExists <;> rfl
  · intro h1 h2
    cases a with
    | stageRaised msg => simp [syncExitedZero] at h1
    | ran proc outputExists =>
      cases proc with
      | exited returncode stderr =>
        have hrc : (returncode == 0) = true := h1
        have hout : outputExists = false := h2
        subst hout
        simp [convert_to_pdf, run_soffice_command, hrc]
      | timedOut => simp [syncExitedZero] at h1
      | fileNotFound => simp [syncExitedZero] at h1
      | raised msg => simp [syncExitedZero] at h1
  · cases a' with
    | raisedOuter msg => rfl
    | timedOut => rfl
    | exited returncode stderr outputExists =>
      cases hr : (returncode == 0) <;> cases outputExists <;>
        simp [convert_to_pdf_async, asyncExitedZero, asyncOutputFound, hr]
  · intro h1 h2
    cases a' with
    | raisedOuter msg => simp [asyncExitedZero] at h1
    | timedOut => simp [asyncExitedZero] at h1
    | exited returncode stderr outputExists =>
      have hrc : (returncode == 0) = true := h1
      have hout : outputExists = false := h2
      subst hout
      simp [convert_to_pdf_async, hrc]

/-- Witness for C1: with exit code 0 but the output file missing, both
converters return the distinct "PDF file not found after conversion"
failure. -/
theorem claim_C1_witness :
    convert_to_pdf defaultConfig [] ("doc.docx".toList) ("u1".toList)
      (.ran (.exited 0 "") false)
      = ⟨false, "PDF file not found after conversion", none⟩
    ∧ convert_to_pdf_async defaultConfig [] ("doc.docx".toList) ("u1".toList)
      (.exited 0 "" false)
      = ⟨false, "PDF file not found after conversion", none⟩ := by
  have h := claim_C1_success_criterion defaultConfig [] ("doc.docx".toList) ("u1".toList)
      (.ran (.exited 0 "") false) (.exited 0 "" false)
  exact ⟨h.2.1 (by decide) (by decide), h.2.2.2 (by decide) (by decide)⟩

/-! ## Claim C3 -/

/-- C3: every failure outcome of either converter (staging exception,
binary not found, non-zero exit, timeout, missing output, unexpected
exception) is absorbed into a returned result with success = false and a
non-empty descriptive message; no outcome raises past the converter. -/
theorem claim_C3_failure_absorption (cfg : Config) (content : List UInt8)
    (filename unique_id : List Char) (a : SyncAttempt) (a' : AsyncAttempt) :
    (syncAttFails a = true →
      (convert_to_pdf cfg content filename unique_id a).success = false
      ∧ (convert_to_pdf cfg content filename unique_id a).message ≠ "")
    ∧ (asyncAttFails a' = true →
      (convert_to_pdf_async cfg content filename unique_id a').success = false
      ∧ (convert_to_pdf_async cfg content filename unique_id a').message ≠ "") := by
  constructor
  · intro hf
    cases a with
    | stageRaised msg =>
      exact ⟨rfl, str_append_ne_empty _ _ (by decide)⟩
    | ran proc outputExists =>
      cases proc with
      | exited returncode stderr =>
        cases hr : (returncode == 0) with
        | false =>
          have hres : convert_to_pdf cfg content filename unique_id
              (.ran (.exited returncode stderr) outputExists)
              = ⟨false, "Conversion failed: " ++ stderr, none⟩ := by
            simp [convert_to_pdf, run_soffice_command, hr]
          rw [hres]
          exact ⟨rfl, str_append_ne_empty _ _ (by decide)⟩
        | true =>
          have hrc : returncode = 0 := by simpa using hr
          subst hrc
          simp only [syncAttFails] at hf
          have hout : outputExists = false := by simpa using hf
          subst hout
          have hres : convert_to_pdf cfg content filename unique_id
              (.ran (.exited 0 stderr) false)
              = ⟨false, "PDF file not found after conversion", none⟩ := by
            simp [convert_to_pdf, run_soffice_command]
          rw [hres]
          exact ⟨rfl, by decide⟩
      | timedOut =>
        have hres : convert_to_pdf cfg content filename unique_id (.ran .timedOut outputExists)
            = ⟨false, "Conversion timeout after " ++ toString cfg.CONVERSION_TIMEOUT
                ++ " seconds", none⟩ := by
          simp [convert_to_pdf, run_soffice_command]
        rw [hres]
        exact ⟨rfl, str_append_ne_empty _ _ (str_append_length_ne _ _ (by decide))⟩
      | fileNotFound =>
        have hres : convert_to_pdf cfg content filename unique_id
            (.ran .fileNotFound outputExists)
            = ⟨false, "LibreOffice not found at " ++ cfg.SOFFICE_PATH, none⟩ := by
          simp [convert_to_pdf, run_soffice_command]
        rw [hres]
        exact ⟨rfl, str_append_ne_empty _ _ (by decide)⟩
      | raised msg =>
        have hres : convert_to_pdf cfg content filename unique_id
            (.ran (.raised msg) outputExists)
            = ⟨false, "Unexpected error during conversion: " ++ msg, none⟩ := by
          simp [convert_to_pdf, run_soffice_command]
        rw [hres]
        exact ⟨rfl, str_append_ne_empty _ _ (by decide)⟩
  · intro hf
    cases a' with
    | raisedOuter msg =>
      exact ⟨rfl, str_append_ne_empty _ _ (by decide)⟩
    | timedOut =>
      refine ⟨rfl, ?_⟩
      exact str_append_ne_empty _ _ (str_append_length_ne _ _ (by decide))
    | exited returncode stderr outputExists =>
      cases hr : (returncode == 0) with
      | false =>
        have hres : convert_to_pdf_async cfg content filename unique_id
            (.exited returncode stderr outputExists)
            = ⟨false, "Async conversion failed: " ++ stderr, none⟩ := by
          simp [convert_to_pdf_async, hr]
        rw [hres]
        exact ⟨rfl, str_append_ne_empty _ _ (by decide)⟩
      | true =>
        have hrc : returncode = 0 := by simpa using hr
        subst hrc
        simp only [asyncAttFails] at hf
        have hout : outputExists = false := by simpa using hf
        subst hout
        have hres : convert_to_pdf_async cfg content filename unique_id
            (.exited 0 stderr false)
            = ⟨false, "PDF file not found after conversion", none⟩ := by
          simp [convert_to_pdf_async]
        rw [hres]
        exact ⟨rfl, by decide⟩

/-- Witness for C3: the timeout outcome yields success = false with a
non-empty message in both converters. -/
theorem claim_C3_witness :
    (convert_to_pdf defaultConfig [] ("doc.docx".toList) ("u1".toList)
      (.ran .timedOut false)).success = false
    ∧ (convert_to_pdf defaultConfig [] ("doc.docx".toList) ("u1".toList)
      (.ran .timedOut false)).message ≠ ""
    ∧ (convert_to_pdf_async defaultConfig [] ("doc.docx".toList) ("u1".toList)
      .timedOut).success = false
    ∧ (convert_to_pdf_async defaultConfig [] ("doc.docx".toList) ("u1".toList)
      .timedOut).message ≠ "" := by
  have h := claim_C3_failure_absorption defaultConfig [] ("doc.docx".toList) ("u1".toList)
      (.ran .timedOut false) .timedOut
  have hs := h.1 (by decide)
  have ha := h.2 (by decide)
  exact ⟨hs.1, hs.2, ha.1, ha.2⟩

/-! ## Claim C10 -/

/-- C10: the result triple of either converter populates the output
filename exactly on success: on success the output is present and ends in
".pdf"; on failure it is none. -/
theorem claim_C10_output_presence (cfg : Config) (content : List UInt8)
    (filename unique_id : List Char) (a : SyncAttempt) (a' : AsyncAttempt) :
    ((convert_to_pdf cfg content filename unique_id a).success = true →
      ∃ nm : List Char, (convert_to_pdf cfg content filename unique_id a).output = some nm
        ∧ List.IsSuffix (".pdf".toList) nm)
    ∧ ((convert_to_pdf cfg content filename unique_id a).success = false →
      (convert_to_pdf cfg content filename unique_id a).output = none)
    ∧ ((convert_to_pdf_async cfg content filename unique_id a').success = true →
      ∃ nm : List Char, (convert_to_pdf_async cfg content filename unique_id a').output = some nm
        ∧ List.IsSuffix (".pdf".toList) nm)
    ∧ ((convert_to_pdf_async cfg content filename unique_id a').success = false →
      (convert_to_pdf_async cfg content filename unique_id a').output = none) := by
  refine ⟨?_, ?_, ?_, ?_⟩
  · intro hs
    cases a with
    | stageRaised msg => simp [convert_to_pdf] at hs
    | ran proc outputExists =>
      cases proc with
      | exited returncode stderr =>
        cases hr : (returncode == 0) with
        | false => simp [convert_to_pdf, run_soffice_command, hr] at hs
        | true =>
          cases outputExists with
          | false => simp [convert_to_pdf, run_soffice_command, hr] at hs
          | true =>
            refine ⟨expected_pdf_name filename unique_id, ?_, ?_⟩
            · simp [convert_to_pdf, run_soffice_command, hr]
            · exact ⟨pyStem (generate_unique_filename filename unique_id (pySuffix filename)),
                rfl⟩
      | timedOut => simp [convert_to_pdf, run_soffice_command] at hs
      | fileNotFound => simp [convert_to_pdf, run_soffice_command] at hs
      | raised msg => simp [convert_to_pdf, run_soffice_command] at hs
  · intro hs
    cases a with
    | stageRaised msg => rfl
    | ran proc outputExists =>
      cases proc with
      | exited returncode stderr =>
        cases hr : (returncode == 0) with
        | false => simp [convert_to_pdf, run_soffice_command, hr]
        | true =>
          cases outputExists with
          | false => simp [convert_to_pdf, run_soffice_command, hr]
          | true => simp [convert_to_pdf, run_soffice_command, hr] at hs
      | timedOut => rfl
      | fileNotFound => rfl
      | raised msg => rfl
  · intro hs
    cases a' with
    | raisedOuter msg => simp [convert_to_pdf_async] at hs
    | timedOut => simp [convert_to_pdf_async] at hs
    | exited returncode stderr outputExists =>
      cases hr : (returncode == 0) with
      | false => simp [convert_to_pdf_async, hr] at hs
      | true =>
        cases outputExists with
        | false => simp [convert_to_pdf_async, hr] at hs
        | true =>
          refine ⟨expected_pdf_name filename unique_id, ?_, ?_⟩
          · simp [convert_to_pdf_async, hr]
          · exact ⟨pyStem (generate_unique_filename filename unique_id (pySuffix filename)),
              rfl⟩
  · intro hs
    cases a' with
    | raisedOuter msg => rfl
    | timedOut => rfl
    | exited returncode stderr outputExists =>
      cases hr : (returncode == 0) with
      | false => simp [convert_to_pdf_async, hr]
      | true =>
        cases outputExists with
        | false => simp [convert_to_pdf_async, hr]
        | true => simp [convert_to_pdf_async, hr] at hs

/-- Witness for C10: a failed sync attempt carries no output name, and a
fully successful async attempt carries one. -/
theorem claim_C10_witness :
    (convert_to_pdf defaultConfig [] ("doc.docx".toList) ("u1".toList)
      (.ran (.exited 1 "boom") true)).output = none
    ∧ (convert_to_pdf_async defaultConfig [] ("doc.docx".toList) ("u1".toList)
      (.exited 0 "" true)).output.isSome = true := by
  have h := claim_C10_output_presence defaultConfig [] ("doc.docx".toList) ("u1".toList)
      (.ran (.exited 1 "boom") true) (.exited 0 "" true)
  refine ⟨h.2.1 (by decide), ?_⟩
  obtain ⟨nm, hnm, _⟩ := h.2.2.1 (by decide)
  rw [hnm]
  rfl

/-! ## Claim C9 -/

/-- C9 counterexample: for the original filename "a.b." (whose pathlib
suffix is empty and whose stem "a.b." contains an interior dot) and the
token "tok", the staged name is "a.b._tok" (stem + separator + token +
extension, as claimed), but the predicted output name the converter looks
for is "a.b.pdf", NOT the claimed stem-plus-token "a.b._tok.pdf". -/
theorem claim_C9_counterexample :
    generate_unique_filename ("a.b.".toList) ("tok".toList) (pySuffix ("a.b.".toList))
      = "a.b._tok".toList
    ∧ expected_pdf_name ("a.b.".toList) ("tok".toList) = "a.b.pdf".toList
    ∧ expected_pdf_name ("a.b.".toList) ("tok".toList)
      ≠ pyStem ("a.b.".toList) ++ '_' :: ("tok".toList ++ ".pdf".toList) := by
  refine ⟨by decide, by decide, by decide⟩

/-- C9 (amended): for every original filename and dot-free, slash-free
token, the staged name is exactly stem + separator + token + original
extension; and — provided the filename has a non-empty extension, or its
stem has no dot beyond a possible leading one — the predicted output name
is that same stem-plus-token with the ".pdf" extension. -/
theorem claim_C9_amended_naming (filename unique_id : List Char)
    (hdot : '.' ∉ unique_id) (hslash : '/' ∉ unique_id)
    (h : pySuffix filename ≠ [] ∨ '.' ∉ (pyStem filename).drop 1) :
    generate_unique_filename filename unique_id (pySuffix filename)
      = pyStem filename ++ '_' :: (unique_id ++ pySuffix filename)
    ∧ expected_pdf_name filename unique_id
      = pyStem filename ++ '_' :: (unique_id ++ ".pdf".toList) := by
  refine ⟨rfl, ?_⟩
  have hst : pyStem (generate_unique_filename filename unique_id (pySuffix filename))
      = pyStem filename ++ '_' :: unique_id := by
    by_cases hsuf : pySuffix filename = []
    · have hstem : '.' ∉ (pyStem filename).drop 1 := by
        rcases h with h | h
        · exact absurd hsuf h
        · exact h
      have hgen : generate_unique_filename filename unique_id (pySuffix filename)
          = pyStem filename ++ '_' :: unique_id := by
        rw [generate_unique_filename, hsuf, List.append_nil]
      rw [hgen]
      cases hS : pyStem filename with
      | nil =>
        simp only [List.nil_append]
        apply pyStem_of_no_dot
        · intro hm
          rcases List.mem_cons.mp hm with hm | hm
          · exact absurd hm (by decide)
          · exact hslash hm
        · intro hm
          rcases List.mem_cons.mp hm with hm | hm
          · exact absurd hm (by decide)
          · exact hdot hm
      | cons c rest =>
        have hSslash : '/' ∉ pyStem filename := pyStem_no_slash filename
        rw [hS] at hSslash
        have hrest : '.' ∉ rest := by rw [hS] at hstem; simpa using hstem
        by_cases hc : c = '.'
        · subst hc
          have hform : ('.' :: rest) ++ '_' :: unique_id
              = '.' :: (rest ++ '_' :: unique_id) := rfl
          rw [hform]
          apply pyStem_of_head_dot
          · intro hm
            rcases List.mem_cons.mp hm with hm | hm
            · exact absurd hm (by decide)
            · rcases List.mem_append.mp hm with hm | hm
              · exact hSslash (List.mem_cons_of_mem _ hm)
              · rcases List.mem_cons.mp hm with hm | hm
                · exact absurd hm (by decide)
                · exact hslash hm
          · intro hm
            rcases List.mem_append.mp hm with hm | hm
            · exact hrest hm
            · rcases List.mem_cons.mp hm with hm | hm
              · exact absurd hm (by decide)
              · exact hdot hm
        · apply pyStem_of_no_dot
          · intro hm
            rcases List.mem_append.mp hm with hm | hm
            · exact hSslash hm
            · rcases List.mem_cons.mp hm with hm | hm
              · exact absurd hm (by decide)
              · exact hslash hm
          · intro hm
            rcases List.mem_append.mp hm with hm | hm
            · rcases List.mem_cons.mp hm with hm | hm
              · exact hc hm.symm
              · exact hrest hm
            · rcases List.mem_cons.mp hm with hm | hm
              · exact absurd hm (by decide)
              · exact hdot hm
    · obtain ⟨a, hsa, hane, had, hSne, hname⟩ := pySuffix_nonempty_spec hsuf
      rw [hsa]
      have hre : generate_unique_filename filename unique_id ('.' :: a)
          = (pyStem filename ++ '_' :: unique_id) ++ '.' :: a :=
        (List.append_assoc (pyStem filename) ('_' :: unique_id) ('.' :: a)).symm
      rw [hre]
      apply pyStem_append_dot
      · intro hm
        rcases List.mem_append.mp hm with hm | hm
        · rcases List.mem_append.mp hm with hm | hm
          · exact pyStem_no_slash filename hm
          · rcases List.mem_cons.mp hm with hm | hm
            · exact absurd hm (by decide)
            · exact hslash hm
        · have hms : '/' ∈ pySuffix filename := by rw [hsa]; exact hm
          exact pySuffix_no_slash filename hms
      · simp
      · exact hane
      · exact had
  rw [expected_pdf_name, hst, List.append_assoc]
  rfl

/-- Witness for C9 (amended): for "report.docx" and token "tok" the staged
name is "report_tok.docx" and the predicted output is "report_tok.pdf". -/
theorem claim_C9_amended_witness :
    generate_unique_filename ("report.docx".toList) ("tok".toList)
      (pySuffix ("report.docx".toList)) = "report_tok.docx".toList
    ∧ expected_pdf_name ("report.docx".toList) ("tok".toList) = "report_tok.pdf".toList := by
  have h := claim_C9_amended_naming ("report.docx".toList) ("tok".toList)
      (by decide) (by decide) (Or.inl (by decide))
  exact ⟨by rw [h.1]; decide, by rw [h.2]; decide⟩

/-! ## Claim C4 -/

/-- C4 counterexample: starting the sweeper (cleanup enabled, not yet
running) emits a sweep as the very FIRST loop action, before any interval
wait — the first sweep does not wait for one full interval. -/
theorem claim_C4_counterexample :
    (start_cleanup_service defaultConfig ⟨false⟩ 1).2
      = [LoopEvent.sweep, LoopEvent.wait 1800]
    ∧ (start_cleanup_service defaultConfig ⟨false⟩ 1).2.head? = some LoopEvent.sweep := by
  exact ⟨by decide, by decide⟩

/-- C4 (amended): after the sweeper is started (enabled, not already
running), the loop performs its first sweep immediately — not after one
full interval — and thereafter each sweep is separated from the next by a
wait of exactly one configured interval, until stopped: the first n
iterations produce n copies of [sweep, wait (interval * 60)]. -/
theorem claim_C4_amended_schedule (cfg : Config) (s : SweeperState) (n : Nat)
    (hen : cfg.ENABLE_CLEANUP = true) (hrun : s.is_running = false) :
    (start_cleanup_service cfg s n).2
      = (List.replicate n
          [LoopEvent.sweep, LoopEvent.wait (cfg.CLEANUP_INTERVAL_MINUTES * 60)]).flatten := by
  have hloop : ∀ m : Nat, cleanup_loop_events cfg m
      = (List.replicate m
          [LoopEvent.sweep, LoopEvent.wait (cfg.CLEANUP_INTERVAL_MINUTES * 60)]).flatten := by
    intro m
    induction m with
    | zero => rfl
    | succ k ih =>
      rw [cleanup_loop_events, ih, hen]
      simp [List.replicate_succ]
  simp [start_cleanup_service, hen, hrun]
  exact hloop n

/-- Witness for C4 (amended): two iterations under the default
configuration. -/
theorem claim_C4_amended_witness :
    (start_cleanup_service defaultConfig ⟨false⟩ 2).2
      = [LoopEvent.sweep, LoopEvent.wait 1800, LoopEvent.sweep, LoopEvent.wait 1800] := by
  have h := claim_C4_amended_schedule defaultConfig ⟨false⟩ 2 (by decide) (by decide)
  rw [h]
  decide

/-! ## Claim C5 -/

/-- C5 counterexample: invoking the completion handler with a job id absent
from the registry does not perform a non-throwing no-op — it raises
(KeyError), because even the except-branch rereads async_tasks[task_id]. -/
theorem claim_C5_counterexample :
    process_async_conversion emptyReg "job-1" ⟨true, "ok", none⟩
      = .error ("KeyError: " ++ "job-1") := by
  rfl

/-- C5 (amended): the completion handler invoked with an absent job id
leaves the registry unchanged but raises a KeyError instead of returning
normally; for an id present in the registry it completes without
throwing. -/
theorem claim_C5_amended_handler (reg : Registry) (task_id : String) (res : ConvResult) :
    ((reg task_id).isNone = true →
      process_async_conversion reg task_id res = .error ("KeyError: " ++ task_id))
    ∧ ((reg task_id).isSome = true →
      ∃ reg' : Registry, process_async_conversion reg task_id res = .ok reg') := by
  constructor
  · intro h
    have hn : reg task_id = none := Option.isNone_iff_eq_none.mp h
    simp [process_async_conversion, hn]
  · intro h
    obtain ⟨old, hold⟩ := Option.isSome_iff_exists.mp h
    cases hres : res.success with
    | true =>
      refine ⟨registryInsert reg task_id ⟨.completed, res.message, res.output, old.created_at⟩,
        ?_⟩
      simp [process_async_conversion, hold, hres]
    | false =>
      refine ⟨registryInsert reg task_id ⟨.failed, res.message, none, old.created_at⟩, ?_⟩
      simp [process_async_conversion, hold, hres]

/-- Witness for C5 (amended): a missing id yields the KeyError and a
present id completes normally. -/
theorem claim_C5_amended_witness :
    process_async_conversion emptyReg "job-2" ⟨false, "m", none⟩
      = .error ("KeyError: " ++ "job-2")
    ∧ (process_async_conversion (registryInsert emptyReg "job-3" (initialJob 0)) "job-3"
        ⟨false, "m", none⟩).toOption.isSome = true := by
  have h1 := claim_C5_amended_handler emptyReg "job-2" ⟨false, "m", none⟩
  have h2 := claim_C5_amended_handler (registryInsert emptyReg "job-3" (initialJob 0))
      "job-3" ⟨false, "m", none⟩
  refine ⟨h1.1 (by decide), ?_⟩
  obtain ⟨reg', hreg'⟩ := h2.2 (by decide)
  rw [hreg']
  rfl

/-! ## Claim C6 -/

/-- C6: a submission with zero-length content is rejected by both paths
with an HTTP 400 precondition failure before staging: the sync route never
reaches the converter, and the async route schedules no background task
and leaves the registry unchanged — so the external binary is never
invoked for that request. -/
theorem claim_C6_empty_rejected (cfg : Config) (reg : Registry) (filename : List Char)
    (unique_id : List Char) (att : SyncAttempt) (task_id : String) (now : Nat) :
    ((convert_sync_route cfg filename [] unique_id att).2 = false
      ∧ ∃ d : String, (convert_sync_route cfg filename [] unique_id att).1
          = .httpError 400 d)
    ∧ ((convert_async_route cfg reg filename [] task_id now).2.2 = none
      ∧ (convert_async_route cfg reg filename [] task_id now).2.1 = reg
      ∧ ∃ d : String, (convert_async_route cfg reg filename [] task_id now).1
          = .httpError 400 d) := by
  by_cases hext : fileExtLower filename ∈ allowed_extensions
  · have hres : convert_sync_route cfg filename [] unique_id att
        = (.httpError 400 "Empty file", false) := by
      simp [convert_sync_route, hext]
    have hres' : convert_async_route cfg reg filename [] task_id now
        = (.httpError 400 "Empty file", reg, none) := by
      simp [convert_async_route, hext]
    rw [hres, hres']
    exact ⟨⟨rfl, ⟨"Empty file", rfl⟩⟩, rfl, rfl, ⟨"Empty file", rfl⟩⟩
  · have hres : convert_sync_route cfg filename [] unique_id att
        = (.httpError 400 ("Unsupported file type: " ++ fileExtLower filename
            ++ ". Supported types: " ++ String.intercalate ", " allowed_extensions), false) := by
      simp [convert_sync_route, hext]
    have hres' : convert_async_route cfg reg filename [] task_id now
        = (.httpError 400 ("Unsupported file type: " ++ fileExtLower filename
            ++ ". Supported types: " ++ String.intercalate ", " allowed_extensions),
           reg, none) := by
      simp [convert_async_route, hext]
    rw [hres, hres']
    exact ⟨⟨rfl, ⟨_, rfl⟩⟩, rfl, rfl, ⟨_, rfl⟩⟩

/-! ## Claim C7 -/

lemma cleanup_directory_eq (cfg : Config) (now : Int) (fs : List FileEntry) :
    cleanup_directory cfg now fs
      = (fs.filter (fun f => !(f.isFile && is_file_expired cfg now f) || f.unlinkError),
         (fs.filter (fun f => f.isFile && is_file_expired cfg now f && !f.unlinkError)).map
           (fun f => f.name)) := by
  induction fs with
  | nil => rfl
  | cons f fs ih =>
    rw [cleanup_directory, ih]
    cases hA : f.isFile <;> cases hB : is_file_expired cfg now f <;>
      cases hC : f.unlinkError <;>
      simp [List.filter_cons, hA, hB, hC]

/-- C7: in one directory sweep, a regular file (with healthy stat and
unlink) whose last-modified time is strictly older than now minus the
configured expiry (in hours) is deleted — its name is reported and it is
gone from the directory — while one strictly newer than that threshold is
retained. -/
theorem claim_C7_retention (cfg : Config) (now : Int) (fs : List FileEntry) (f : FileEntry)
    (hmem : f ∈ fs) (hfile : f.isFile = true) (hstat : f.statError = false)
    (hunlink : f.unlinkError = false) :
    (f.mtime < now - (cfg.FILE_EXPIRE_HOURS : Int) * 3600 →
      f.name ∈ (cleanup_directory cfg now fs).2 ∧ f ∉ (cleanup_directory cfg now fs).1)
    ∧ (now - (cfg.FILE_EXPIRE_HOURS : Int) * 3600 < f.mtime →
      f ∈ (cleanup_directory cfg now fs).1) := by
  constructor
  · intro hold
    have hexp : is_file_expired cfg now f = true := by
      simp [is_file_expired, hstat]
      exact hold
    rw [cleanup_directory_eq]
    constructor
    · exact List.mem_map_of_mem _
        (List.mem_filter.mpr ⟨hmem, by simp [hfile, hexp, hunlink]⟩)
    · intro hmem2
      have hk := (List.mem_filter.mp hmem2).2
      simp [hfile, hexp, hunlink] at hk
  · intro hnew
    have hexp : is_file_expired cfg now f = false := by
      simp [is_file_expired, hstat]
      omega
    rw [cleanup_directory_eq]
    exact List.mem_filter.mpr ⟨hmem, by simp [hexp]⟩

/-- Witness for C7 with the spec's example: expiry one hour, now = 7200 s;
a file last modified at t = 0 (two hours old) is deleted and one last
modified at t = 6600 (ten minutes old) is retained. -/
theorem claim_C7_witness :
    "old" ∈ (cleanup_directory defaultConfig 7200
      [⟨"old", 0, true, false, false⟩, ⟨"new", 6600, true, false, false⟩]).2
    ∧ (⟨"new", 6600, true, false, false⟩ : FileEntry)
        ∈ (cleanup_directory defaultConfig 7200
          [⟨"old", 0, true, false, false⟩, ⟨"new", 6600, true, false, false⟩]).1 := by
  have h1 := claim_C7_retention defaultConfig 7200
      [⟨"old", 0, true, false, false⟩, ⟨"new", 6600, true, false, false⟩]
      ⟨"old", 0, true, false, false⟩ (by decide) rfl rfl rfl
  have h2 := claim_C7_retention defaultConfig 7200
      [⟨"old", 0, true, false, false⟩, ⟨"new", 6600, true, false, false⟩]
      ⟨"new", 6600, true, false, false⟩ (by decide) rfl rfl rfl
  exact ⟨(h1.1 (by decide)).1, h2.2 (by decide)⟩

/-! ## Claim C8 -/

lemma cleanup_directory_second_empty (cfg : Config) (now : Int) (fs : List FileEntry) :
    (cleanup_directory cfg now (cleanup_directory cfg now fs).1).2 = [] := by
  have hfst : (cleanup_directory cfg now fs).1
      = fs.filter (fun f => !(f.isFile && is_file_expired cfg now f) || f.unlinkError) := by
    rw [cleanup_directory_eq]
  have hsnd : ∀ gs : List FileEntry, (cleanup_directory cfg now gs).2
      = (gs.filter (fun f => f.isFile && is_file_expired cfg now f && !f.unlinkError)).map
          (fun f => f.name) := by
    intro gs
    rw [cleanup_directory_eq]
  rw [hfst, hsnd, List.filter_filter]
  have hnil : List.filter (fun a => (a.isFile && is_file_expired cfg now a && !a.unlinkError)
      && (!(a.isFile && is_file_expired cfg now a) || a.unlinkError)) fs = [] := by
    apply List.filter_eq_nil_iff.mpr
    intro g hg
    cases hA : g.isFile && is_file_expired cfg now g <;> cases hB : g.unlinkError <;>
      simp [hA, hB]
  rw [hnil]
  rfl

/-- C8: running a sweep twice in immediate succession with no files added
or modified in between yields a second report whose deletion counts are
all zero. -/
theorem claim_C8_second_sweep_zero (cfg : Config) (now : Int) (d : Dirs) :
    ((cleanup_expired_files cfg now (cleanup_expired_files cfg now d).1).2.deleted_uploads = 0)
    ∧ ((cleanup_expired_files cfg now (cleanup_expired_files cfg now d).1).2.deleted_outputs = 0)
    ∧ ((cleanup_expired_files cfg now (cleanup_expired_files cfg now d).1).2.total_deleted = 0) := by
  have hopt : ∀ o : Option (List FileEntry),
      (cleanup_directory_opt cfg now (cleanup_directory_opt cfg now o).1).2 = [] := by
    intro o
    cases o with
    | none => rfl
    | some fs => simp [cleanup_directory_opt, cleanup_directory_second_empty]
  simp [cleanup_expired_files, hopt]

/-! ## Claim C2 -/

lemma registryInsert_same (reg : Registry) (task_id : String) (j : Job) :
    registryInsert reg task_id j task_id = some j := by
  unfold registryInsert
  simp

lemma registryInsert_other (reg : Registry) (task_id x : String) (j : Job) (h : x ≠ task_id) :
    registryInsert reg task_id j x = reg x := by
  unfold registryInsert
  simp [h]

lemma run_append (reg : Registry) (l₁ l₂ : List Event) :
    run reg (l₁ ++ l₂) = run (run reg l₁) l₂ := by
  induction l₁ generalizing reg with
  | nil => rfl
  | cons e tr ih => rw [List.cons_append, run, run, ih]

lemma step_finish_present {reg : Registry} {task_id : String} {res : ConvResult} {old : Job}
    (hold : reg task_id = some old) :
    step reg (.finish task_id res)
      = registryInsert reg task_id
          (if res.success then ⟨.completed, res.message, res.output, old.created_at⟩
           else ⟨.failed, res.message, none, old.created_at⟩) := by
  cases hres : res.success with
  | true => simp [step, process_async_conversion, hold, hres]
  | false => simp [step, process_async_conversion, hold, hres]

lemma inv_empty : Inv emptyReg [] [] := by
  refine ⟨?_, ?_, List.nodup_nil⟩
  · intro x hx
    simp [emptyReg] at hx
  · intro x hx
    simp at hx

lemma inv_step_submit {reg : Registry} {seen pending : List String} {task_id : String}
    {now : Nat} (inv : Inv reg seen pending) (hfresh : task_id ∉ seen) :
    Inv (step reg (.submit task_id now)) (task_id :: seen) (task_id :: pending) := by
  obtain ⟨inv1, inv2, inv3⟩ := inv
  refine ⟨?_, ?_, ?_⟩
  · intro x hx
    by_cases hxi : x = task_id
    · exact hxi ▸ List.mem_cons_self _ _
    · rw [show step reg (.submit task_id now) x = reg x from
        registryInsert_other _ _ _ _ hxi] at hx
      exact List.mem_cons_of_mem _ (inv1 x hx)
  · intro x hx
    rcases List.mem_cons.mp hx with hxe | hxp
    · subst hxe
      exact ⟨initialJob now, registryInsert_same _ _ _, rfl⟩
    · have hxne : x ≠ task_id := by
        intro hc
        subst hc
        obtain ⟨j, hj, _⟩ := inv2 x hxp
        exact hfresh (inv1 x (by rw [hj]; rfl))
      obtain ⟨j, hj, hjs⟩ := inv2 x hxp
      refine ⟨j, ?_, hjs⟩
      rw [show step reg (.submit task_id now) x = reg x from
        registryInsert_other _ _ _ _ hxne]
      exact hj
  · refine List.nodup_cons.mpr ⟨?_, inv3⟩
    intro hc
    obtain ⟨j, hj, _⟩ := inv2 task_id hc
    exact hfresh (inv1 task_id (by rw [hj]; rfl))

lemma inv_step_finish {reg : Registry} {seen pending : List String} {task_id : String}
    {res : ConvResult} (inv : Inv reg seen pending) (hmem : task_id ∈ pending) :
    Inv (step reg (.finish task_id res)) seen (pending.erase task_id) := by
  obtain ⟨inv1, inv2, inv3⟩ := inv
  obtain ⟨old, hold, holds⟩ := inv2 task_id hmem
  rw [step_finish_present hold]
  refine ⟨?_, ?_, ?_⟩
  · intro x hx
    by_cases hxi : x = task_id
    · subst hxi
      exact inv1 x (by rw [hold]; rfl)
    · rw [registryInsert_other _ _ _ _ hxi] at hx
      exact inv1 x hx
  · intro x hx
    have hxp : x ∈ pending := List.mem_of_mem_erase hx
    have hxne : x ≠ task_id := by
      intro hc
      subst hc
      exact inv3.not_mem_erase hx
    obtain ⟨j, hj, hjs⟩ := inv2 x hxp
    refine ⟨j, ?_, hjs⟩
    rw [registryInsert_other _ _ _ _ hxne]
    exact hj
  · exact inv3.erase task_id

lemma run_preserves_terminal {tr : List Event} {seen pending : List String}
    (w : Wf seen pending tr) :
    ∀ reg : Registry, Inv reg seen pending →
      ∀ (task_id : String) (j : Job), reg task_id = some j → j.status ≠ .processing →
        run reg tr task_id = some j := by
  induction w with
  | nil seen pending =>
    intro reg _ task_id j hj _
    exact hj
  | @submit seen pending tid now tr hfresh htl ih =>
    intro reg inv task_id j hj hjs
    have hnone : reg tid = none := by
      cases hv : reg tid with
      | none => rfl
      | some u => exact absurd (inv.1 tid (by rw [hv]; rfl)) hfresh
    have hne : task_id ≠ tid := by
      intro hc
      subst hc
      rw [hnone] at hj
      cases hj
    rw [run]
    apply ih (step reg (.submit tid now)) (inv_step_submit inv hfresh)
    · rw [show step reg (.submit tid now) task_id = reg task_id from
        registryInsert_other _ _ _ _ hne]
      exact hj
    · exact hjs
  | @finish seen pending tid res tr hmem htl ih =>
    intro reg inv task_id j hj hjs
    obtain ⟨old, hold, holds⟩ := inv.2.1 tid hmem
    have hne : task_id ≠ tid := by
      intro hc
      subst hc
      rw [hold] at hj
      injection hj with hj'
      subst hj'
      exact hjs holds
    rw [run]
    apply ih (step reg (.finish tid res)) (inv_step_finish inv hmem)
    · rw [step_finish_present hold, registryInsert_other _ _ _ _ hne]
      exact hj
    · exact hjs

lemma wf_split {l₁ l₂ : List Event} {seen pending : List String} {reg : Registry}
    (w : Wf seen pending (l₁ ++ l₂)) (inv : Inv reg seen pending) :
    ∃ seen' pending' : List String, Wf seen' pending' l₂ ∧ Inv (run reg l₁) seen' pending' := by
  induction l₁ generalizing seen pending reg with
  | nil => exact ⟨seen, pending, w, inv⟩
  | cons e l₁ ih =>
    cases e with
    | submit task_id now =>
      cases w with
      | submit hfresh htl => exact ih htl (inv_step_submit inv hfresh)
    | finish task_id res =>
      cases w with
      | finish hmem htl => exact ih htl (inv_step_finish inv hmem)

/-- C2: over every well-formed event trace of the deferred path from
program start (fresh uuid per submission, each submission's completion
handler runs exactly once): (1) a job's record immediately after its
submission is the initial Processing record; (2) once a job's record
carries a non-Processing status, it is unchanged by the rest of the trace
— no job re-enters Processing and no Completed/Failed job changes again;
(3) any single event that changes an existing job's record turns a
Processing job into a Completed or Failed one. -/
theorem claim_C2_status_machine (tr : List Event) (w : Wf [] [] tr) :
    (∀ (tr₁ : List Event) (task_id : String) (now : Nat) (tr₂ : List Event),
      tr = tr₁ ++ .submit task_id now :: tr₂ →
      run emptyReg (tr₁ ++ [.submit task_id now]) task_id = some (initialJob now)
      ∧ (initialJob now).status = .processing)
    ∧ (∀ (tr₁ tr₂ : List Event) (task_id : String) (j : Job),
      tr = tr₁ ++ tr₂ → run emptyReg tr₁ task_id = some j → j.status ≠ .processing →
      run emptyReg tr task_id = some j)
    ∧ (∀ (tr₁ : List Event) (e : Event) (tr₂ : List Event) (task_id : String) (j j' : Job),
      tr = tr₁ ++ e :: tr₂ → run emptyReg tr₁ task_id = some j →
      run emptyReg (tr₁ ++ [e]) task_id = some j' → j' ≠ j →
      j.status = .processing ∧ (j'.status = .completed ∨ j'.status = .failed)) := by
  refine ⟨?_, ?_, ?_⟩
  · intro tr₁ task_id now tr₂ htr
    constructor
    · rw [run_append]
      exact registryInsert_same _ _ _
    · rfl
  · intro tr₁ tr₂ task_id j htr hj hjs
    subst htr
    obtain ⟨seen', pending', w₂, inv₂⟩ := wf_split w inv_empty
    rw [run_append]
    exact run_preserves_terminal w₂ _ inv₂ task_id j hj hjs
  · intro tr₁ e tr₂ task_id j j' htr hj hj' hne
    subst htr
    obtain ⟨seen', pending', w₂, inv₂⟩ := wf_split w inv_empty
    have hstep : run emptyReg (tr₁ ++ [e]) task_id = step (run emptyReg tr₁) e task_id := by
      rw [run_append]
      rfl
    rw [hstep] at hj'
    cases e with
    | submit tid now =>
      cases w₂ with
      | submit hfresh htl =>
        have hnone : run emptyReg tr₁ tid = none := by
          cases hv : run emptyReg tr₁ tid with
          | none => rfl
          | some u => exact absurd (inv₂.1 tid (by rw [hv]; rfl)) hfresh
        have hneid : task_id ≠ tid := by
          intro hc
          subst hc
          rw [hnone] at hj
          cases hj
        rw [show step (run emptyReg tr₁) (.submit tid now) task_id
            = run emptyReg tr₁ task_id from registryInsert_other _ _ _ _ hneid] at hj'
        rw [hj] at hj'
        injection hj' with he
        exact absurd he.symm hne
    | finish tid res =>
      cases w₂ with
      | finish hmem htl =>
        obtain ⟨old, hold, holds⟩ := inv₂.2.1 tid hmem
        by_cases hid : task_id = tid
        · subst hid
          rw [hold] at hj
          injection hj with hjold
          subst hjold
          rw [step_finish_present hold, registryInsert_same] at hj'
          injection hj' with hj'e
          refine ⟨holds, ?_⟩
          cases hres : res.success with
          | true =>
            rw [hres] at hj'e
            simp only [if_true] at hj'e
            rw [← hj'e]
            exact Or.inl rfl
          | false =>
            rw [hres] at hj'e
            simp only [Bool.false_eq_true, if_false] at hj'e
            rw [← hj'e]
            exact Or.inr rfl
        · rw [step_finish_present hold, registryInsert_other _ _ _ _ hid] at hj'
          rw [hj] at hj'
          injection hj' with he
          exact absurd he.symm hne

/-- Witness for C2: submitting job "a" and then running its completion
handler with a successful result leaves it Completed. -/
theorem claim_C2_witness :
    run emptyReg [Event.submit "a" 0,
        Event.finish "a" ⟨true, "ok", some ("x.pdf".toList)⟩] "a"
      = some ⟨JobStatus.completed, "ok", some ("x.pdf".toList), 0⟩ := by
  have w : Wf [] [] [Event.submit "a" 0,
      Event.finish "a" ⟨true, "ok", some ("x.pdf".toList)⟩] :=
    Wf.submit (by simp) (Wf.finish (by simp) (Wf.nil _ _))
  have h := claim_C2_status_machine _ w
  exact h.2.1 [Event.submit "a" 0, Event.finish "a" ⟨true, "ok", some ("x.pdf".toList)⟩] []
      "a" ⟨JobStatus.completed, "ok", some ("x.pdf".toList), 0⟩
      (by simp) (by decide) (by decide)

end ConvertToPDFSrv
